import Mathlib

/-!
# Verification of the docusense document-processing service

This file gives a shallow embedding, in Lean 4, of the parts of the
docusense Python code base that the checked properties are about:

* `app/services/user_service.py` — role levels, permission check, user creation;
* `app/utils/logger.py` — sanitization of logged request payloads;
* `app/services/document_service.py` — the document processing pipeline;
* `app/services/search_service.py` — the post-retrieval part of semantic search;
* `app/utils/preprocessing.py` — text cleaning and text statistics;
* `app/utils/scoring.py` — confidence scoring.

Modelling conventions:

* Python strings are modelled as `String` where only equality, length and
  truncation matter, and as `List Nat` of Unicode code points where
  character classes matter (cleaning, tokenization).
* Python dictionaries with a fixed shape are modelled as structures; a key
  that may be absent becomes an `Option` field.  JSON-like nested request
  payloads are modelled by the inductive type `PyVal`.
* Python floats are modelled as exact rationals `ℚ`, except where the code
  applies `math.exp`, which is modelled with the real exponential; Python's
  `round(x, n)` is modelled by exact half-even rounding of the rational or
  real value.
* A Python call that may raise is modelled by an `Option`-valued oracle
  parameter (`none` = the call raised and the surrounding `except` block
  runs).
* Unicode character classification tables (printable, whitespace, combining
  class, NFKD decomposition) are finite fragments of the Unicode data that
  are exact on the code points used in this development.
-/

namespace DocuSense

/-! ## `user_service.py` : role hierarchy and permission check -/

/-- The role hierarchy dictionary of `check_permission`
(`user_service.py`, lines 314-319); `dict.get(role, 0)` maps any unknown
role name to level 0. -/
def roleLevel (role : String) : Nat :=
  if role = "guest" then 0
  else if role = "user" then 1
  else if role = "admin" then 2
  else if role = "superadmin" then 3
  else 0

/-- `check_permission(user_role, required_role)` (`user_service.py`,
lines 301-332): true iff the user's level is at least the required level. -/
def check_permission (user_role required_role : String) : Bool :=
  roleLevel required_role ≤ roleLevel user_role

/-! ## `user_service.py` : user creation -/

/-- A record of the mock user database `MOCK_USERS`
(`user_service.py`, lines 29-50 and 378-387). -/
structure UserRecord where
  user_id : String
  username : String
  email : String
  hashed_password : String
  role : String
  is_active : Bool
  created_at : String
  last_login : Option String
deriving Repr, DecidableEq

/-- Association-list lookup modelling `MOCK_USERS.get(username)`
(`get_user_by_username`, `user_service.py`, lines 164-178). -/
def getUserByUsername (db : List (String × UserRecord)) (username : String) :
    Option UserRecord :=
  match db.find? (fun p => p.1 = username) with
  | some p => some p.2
  | none => none

/-- Outcome of `create_user`: the (possibly extended) database and the
`success` flag of the returned dictionary. -/
structure CreateUserResult where
  db : List (String × UserRecord)
  success : Bool
  error : Option String
deriving Repr, DecidableEq

/-- `create_user(username, email, password, role)` (`user_service.py`,
lines 335-405).  The fresh user id, the password hash and the timestamp are
oracle parameters (`secrets.token_hex`, `get_password_hash`,
`datetime.utcnow`). -/
def create_user (db : List (String × UserRecord))
    (username email password role : String)
    (newId hash now : String) : CreateUserResult :=
  if (getUserByUsername db username).isSome then
    { db := db, success := false, error := some "Username already exists" }
  else if username = "" ∨ email = "" ∨ password = "" then
    { db := db, success := false, error := some "Missing required fields" }
  else if password.length < 6 then
    { db := db, success := false,
      error := some "Password must be at least 6 characters" }
  else
    let newUser : UserRecord :=
      { user_id := newId, username := username, email := email,
        hashed_password := hash, role := role, is_active := true,
        created_at := now, last_login := none }
    { db := (username, newUser) :: db, success := true, error := none }

/-! ## `logger.py` : sanitization of logged request data -/

/-- A JSON-like Python value appearing in a request payload. -/
inductive PyVal where
  | str (s : String)
  | int (n : Int)
  | dict (entries : List (String × PyVal))
deriving Repr

/-- The list `sensitive_keys` of `_sanitize_request_data`
(`logger.py`, line 272). -/
def sensitiveKeys : List String :=
  ["password", "token", "api_key", "secret", "authorization"]

/-- ASCII lowering of one code unit, modelling `str.lower()` on the ASCII
key names that occur in request payloads. -/
def lowerChar (c : Char) : Char :=
  if 65 ≤ c.toNat ∧ c.toNat ≤ 90 then Char.ofNat (c.toNat + 32) else c

/-- Substring test on character lists, modelling Python's `in` on strings. -/
def infixCheck (needle : List Char) : List Char → Bool
  | [] => needle.isEmpty
  | c :: rest => needle.isPrefixOf (c :: rest) || infixCheck needle rest

/-- `any(sensitive_key in key.lower() for sensitive_key in sensitive_keys)`
(`logger.py`, line 276): case-insensitive substring test. -/
def isSensitiveKey (key : String) : Bool :=
  sensitiveKeys.any fun s => infixCheck s.data (key.data.map lowerChar)

mutual

/-- `_sanitize_request_data` (`logger.py`, lines 262-283) applied to the
value of one key: dictionaries are recursed into, everything else is kept. -/
def sanitizeVal : PyVal → PyVal
  | .dict es => .dict (sanitizeEntries es)
  | v => v

/-- The loop body of `_sanitize_request_data` over the items of a dict:
a sensitive key gets the literal `"[REDACTED]"`, a dict value is sanitized
recursively, any other value is kept. -/
def sanitizeEntries : List (String × PyVal) → List (String × PyVal)
  | [] => []
  | (k, v) :: rest =>
      (if isSensitiveKey k then (k, .str "[REDACTED]")
       else (k, sanitizeVal v)) :: sanitizeEntries rest

end

/-- `log_api_call` (`logger.py`, lines 136-168): the `request_data` entry of
the logged `details` dictionary — present and sanitized exactly when a
non-empty payload was supplied (Python truthiness of the dict). -/
def logApiCallRequestData (request_data : List (String × PyVal)) :
    Option PyVal :=
  if request_data.isEmpty then none
  else some (.dict (sanitizeEntries request_data))

/-! ## Character tables

Text is modelled as `List Nat` of Unicode code points.  The classification
tables below are finite fragments of the Unicode data used by Python's
`str.isspace` / regex `\s`, `str.isprintable`, `re` word characters `\w`,
and `unicodedata.normalize('NFKD', ...)`; they are exact on every code
point occurring in this development (ASCII, Latin-1 punctuation and the
combining diacritical marks block U+0300-U+036F). -/

/-- Code points of `List Char` data of a `String`. -/
def codesOf (s : String) : List Nat := s.data.map Char.toNat

/-- Python whitespace (`str.isspace`, and the regex class `\s` on `str`):
ASCII whitespace and separators plus the Unicode space characters. -/
def isSpaceNat (c : Nat) : Bool :=
  (9 ≤ c && c ≤ 13) || (28 ≤ c && c ≤ 31) || c == 32 || c == 133 || c == 160 ||
  c == 0x1680 || (0x2000 ≤ c && c ≤ 0x200A) || c == 0x2028 || c == 0x2029 ||
  c == 0x202F || c == 0x205F || c == 0x3000

/-- Fragment of Python's `str.isprintable`: printable ASCII, the printable
part of Latin-1 and Latin extended (soft hyphen U+00AD is a format
character, hence not printable), and the combining diacritical marks
U+0300-U+036F (nonspacing marks are printable).  Code points outside the
fragment are treated as not printable. -/
def isPrintableNat (c : Nat) : Bool :=
  (32 ≤ c && c ≤ 126) || (161 ≤ c && c ≤ 0x2FF && c != 173) ||
  (0x300 ≤ c && c ≤ 0x36F)

/-- Fragment of the Unicode canonical combining class table: the common
ccc-230 (above) and ccc-220 (below) ranges of the combining diacritical
marks block.  Code points outside the fragment have class 0. -/
def ccc (c : Nat) : Nat :=
  if 0x300 ≤ c ∧ c ≤ 0x314 then 230
  else if 0x316 ≤ c ∧ c ≤ 0x319 then 220
  else if 0x31C ≤ c ∧ c ≤ 0x320 then 220
  else if 0x323 ≤ c ∧ c ≤ 0x326 then 220
  else if 0x329 ≤ c ∧ c ≤ 0x333 then 220
  else 0

/-- Fragment of the fully expanded NFKD decomposition map: no-break space
compat-decomposes to space, A/a-grave decompose canonically; every other
code point of the fragment is its own decomposition. -/
def nfkdDecomp (c : Nat) : List Nat :=
  if c = 0xA0 then [32]
  else if c = 0xC0 then [0x41, 0x300]
  else if c = 0xE0 then [0x61, 0x300]
  else [c]

/-- One insertion step of the Unicode canonical ordering algorithm: a mark
moves right past earlier marks of strictly greater combining class; starters
(class 0) block all movement. -/
def cInsert (c : Nat) : List Nat → List Nat
  | [] => [c]
  | d :: ds => if 0 < ccc d ∧ ccc d < ccc c then d :: cInsert c ds else c :: d :: ds

/-- Canonical ordering: the stable ascending sort, by combining class, of
every maximal run of nonzero-class marks. -/
def canonicalOrder (l : List Nat) : List Nat := l.foldr cInsert []

/-- `unicodedata.normalize('NFKD', text)` on the modelled fragment:
decompose every code point, then apply canonical ordering. -/
def nfkd (l : List Nat) : List Nat := canonicalOrder ((l.map nfkdDecomp).flatten)

/-! ## `preprocessing.py` : `clean_text` with its default options -/

/-- `re.sub(r'\r\n|\r|\n', ' ', text)` (`clean_text`, `preprocessing.py`,
line 67): each `\r\n` pair, lone `\r`, or lone `\n` becomes one space. -/
def replaceNewlines : List Nat → List Nat
  | [] => []
  | 13 :: 10 :: rest => 32 :: replaceNewlines rest
  | 13 :: rest => 32 :: replaceNewlines rest
  | 10 :: rest => 32 :: replaceNewlines rest
  | c :: rest => c :: replaceNewlines rest

/-- `re.sub(r'\s+', ' ', text)` (`clean_text`, line 72): every maximal run
of whitespace becomes a single space; the flag records whether the previous
character belonged to a whitespace run. -/
def collapseWs : Bool → List Nat → List Nat
  | _, [] => []
  | prev, c :: rest =>
      if isSpaceNat c then
        if prev then collapseWs true rest else 32 :: collapseWs true rest
      else c :: collapseWs false rest

/-- Python `str.strip()`: drop leading and trailing whitespace. -/
def stripBoth (l : List Nat) : List Nat :=
  ((l.dropWhile isSpaceNat).reverse.dropWhile isSpaceNat).reverse

/-- `clean_text(text)` (`preprocessing.py`, lines 17-95) under its default
options (`remove_extra_whitespace=True`, `remove_special_chars=False`,
`normalize_unicode=True`, `to_lowercase=False`, `preserve_newlines=False`):
NFKD-normalize, keep printable-or-whitespace characters, replace line
breaks by spaces, collapse whitespace runs, and strip. -/
def clean_text (l : List Nat) : List Nat :=
  stripBoth (collapseWs false
    (replaceNewlines ((nfkd l).filter fun c => isPrintableNat c || isSpaceNat c)))

/-! ## `preprocessing.py` : tokenization, sentences, paragraphs, statistics -/

/-- ASCII fragment of the regex word class `\w`. -/
def wordCharNat (c : Nat) : Bool :=
  (48 ≤ c && c ≤ 57) || (65 ≤ c && c ≤ 90) || (97 ≤ c && c ≤ 122) || c == 95

/-- ASCII fragment of `str.lower()`. -/
def toLowerNat (c : Nat) : Nat := if 65 ≤ c ∧ c ≤ 90 then c + 32 else c

/-- Maximal runs of `p`-characters, in order: `re.findall` of `\b\w+\b`
returns exactly the maximal runs of word characters.  `cur` holds the
current run reversed. -/
def runsAux (p : Nat → Bool) (cur : List Nat) : List Nat → List (List Nat)
  | [] => if cur.isEmpty then [] else [cur.reverse]
  | c :: rest =>
      if p c then runsAux p (c :: cur) rest
      else if cur.isEmpty then runsAux p [] rest
      else cur.reverse :: runsAux p [] rest

/-- `tokenize_text(text)` (`preprocessing.py`, lines 228-253) with
`preserve_case=False`: lowercase, then the maximal runs of `\w`. -/
def tokenize_text (l : List Nat) : List (List Nat) :=
  if l = [] then [] else runsAux wordCharNat [] (l.map toLowerNat)

/-- Sentence separator class `[.!?]`. -/
def sepChar (c : Nat) : Bool := c == 46 || c == 33 || c == 63

mutual

/-- `re.split(r'[.!?]+', text)`, outside a separator run: `cur` holds the
current segment reversed; a separator emits the segment and enters the run. -/
def splitSegAux : List Nat → List Nat → List (List Nat)
  | cur, [] => [cur.reverse]
  | cur, c :: rest =>
      if sepChar c then cur.reverse :: splitSepRun rest
      else splitSegAux (c :: cur) rest

/-- `re.split(r'[.!?]+', text)`, inside a separator run: further separators
are absorbed; the run ends at the next ordinary character (or yields a
final empty segment at the end of input). -/
def splitSepRun : List Nat → List (List Nat)
  | [] => [[]]
  | c :: rest => if sepChar c then splitSepRun rest else splitSegAux [c] rest

end

/-- `extract_sentences(text, min_length)` (`preprocessing.py`, lines
164-193): split on `[.!?]+`, strip each piece, keep those of at least
`min_length` characters; empty input gives no sentences. -/
def extract_sentences (l : List Nat) (min_length : Nat) : List (List Nat) :=
  if l = [] then []
  else ((splitSegAux [] l).map stripBoth).filter fun s => min_length ≤ s.length

/-- Index of the last newline in a list, if any. -/
def lastNewlineIdx (l : List Nat) : Option Nat :=
  l.enum.foldl (fun acc p => if p.2 = 10 then some p.1 else acc) none

/-- `re.split(r'\n\s*\n|\n{2,}', text)`: a separator match starts at a
newline whose following maximal whitespace run contains another newline and
extends, greedily, to the last newline of that run (`\n{2,}` is subsumed by
`\n\s*\n`).  `cur` holds the current segment reversed. -/
def paraSplit (cur : List Nat) : List Nat → List (List Nat)
  | [] => [cur.reverse]
  | c :: rest =>
      if c = 10 then
        match lastNewlineIdx (rest.takeWhile isSpaceNat) with
        | some j => cur.reverse :: paraSplit [] (rest.drop (j + 1))
        | none => paraSplit (10 :: cur) rest
      else paraSplit (c :: cur) rest
  termination_by l => l.length
  decreasing_by
    all_goals simp only [List.length_drop, List.length_cons]
    all_goals omega

/-- `extract_paragraphs(text, min_length)` (`preprocessing.py`, lines
196-225): split on blank-line separators, strip each piece, keep those of
at least `min_length` characters; empty input gives no paragraphs. -/
def extract_paragraphs (l : List Nat) (min_length : Nat) : List (List Nat) :=
  if l = [] then []
  else ((paraSplit [] l).map stripBoth).filter fun s => min_length ≤ s.length

/-- Half-even integer rounding of an exact rational, modelling Python's
`round` on the modelled exact values. -/
def roundHalfEvenQ (q : ℚ) : ℤ :=
  let f := ⌊q⌋
  if q - f < 1/2 then f
  else if 1/2 < q - f then f + 1
  else if f % 2 = 0 then f else f + 1

/-- `round(q, n)` on an exact rational. -/
def roundToQ (n : Nat) (q : ℚ) : ℚ := (roundHalfEvenQ (q * 10 ^ n) : ℚ) / 10 ^ n

/-- Sum of the lengths of a list of words. -/
def totalLen (ws : List (List Nat)) : Nat := (ws.map List.length).sum

/-- `_calculate_simple_readability(sentences, words)` (`preprocessing.py`,
lines 368-392): 0 when there are no sentences or no words, otherwise
`round(avg_sentence_length * 0.5 + avg_word_length * 2, 2)` with the raw
(unrounded) averages. -/
def calculateSimpleReadability (sentences words : List (List Nat)) : ℚ :=
  if sentences = [] ∨ words = [] then 0
  else roundToQ 2 ((words.length : ℚ) / (sentences.length : ℚ) * (1/2) +
    (totalLen words : ℚ) / (words.length : ℚ) * 2)

/-- The dictionary returned by `get_text_statistics`; `readability_score`
is an `Option` because the empty-input branch returns a dictionary without
that key. -/
structure TextStats where
  character_count : Nat
  word_count : Nat
  sentence_count : Nat
  paragraph_count : Nat
  average_word_length : ℚ
  average_sentence_length : ℚ
  readability_score : Option ℚ
deriving Repr, DecidableEq

/-- `get_text_statistics(text)` (`preprocessing.py`, lines 319-365). -/
def get_text_statistics (text : List Nat) : TextStats :=
  if text = [] then
    { character_count := 0, word_count := 0, sentence_count := 0,
      paragraph_count := 0, average_word_length := 0,
      average_sentence_length := 0, readability_score := none }
  else
    let words := tokenize_text text
    let wc := words.length
    let sentences := extract_sentences text 10
    let sc := sentences.length
    let awl : ℚ := if 0 < wc then (totalLen words : ℚ) / (wc : ℚ) else 0
    let asl : ℚ := if 0 < sc then (wc : ℚ) / (sc : ℚ) else 0
    { character_count := text.length, word_count := wc, sentence_count := sc,
      paragraph_count := (extract_paragraphs text 50).length,
      average_word_length := roundToQ 2 awl,
      average_sentence_length := roundToQ 2 asl,
      readability_score := some (calculateSimpleReadability sentences words) }

/-! ## `scoring.py` : confidence scoring

A prediction dictionary with a numeric base score is modelled by the
structure below; the optional keys `margin`, `entropy` and `input_quality`
become `Option` fields.  The empty-dictionary and non-numeric-score error
paths of `compute_confidence` (which return 0.0) are outside this model. -/

structure Prediction where
  score : ℚ
  margin : Option ℚ
  entropy : Option ℚ
  input_quality : Option ℚ

/-- `max(0.0, min(1.0, float(base_score)))` (`scoring.py`, line 44). -/
def clampScore (q : ℚ) : ℚ := max 0 (min 1 q)

/-- The pre-smoothing adjustment chain of `compute_confidence`
(`scoring.py`, lines 44-68): clamp, then the margin, entropy and input
quality adjustments, each applied only when the corresponding key is
present. -/
def adjustedScore (p : Prediction) : ℚ :=
  let a := clampScore p.score
  let a := match p.margin with
    | some m => if 1/2 < m then min 1 (a * (11/10))
                else if m < 1/5 then a * (9/10) else a
    | none => a
  let a := match p.entropy with
    | some e => a * (4/5 + (1/5) * (1 - min 1 (e / 2)))
    | none => a
  match p.input_quality with
    | some q => if q < 1/2 then a * (1/2 + q) else a
    | none => a

/-- `_sigmoid_smooth(score)` with the default steepness 10 (`scoring.py`,
lines 80-96): `1 / (1 + exp(-(score - 0.5) * 10))`.  `math.exp` is modelled
by the real exponential; the `OverflowError` branch is unreachable for the
clamped inputs this model receives. -/
noncomputable def sigmoidSmooth (score : ℚ) : ℝ :=
  1 / (1 + Real.exp (-((score - 1/2) * 10 : ℚ)))

/-- Half-even integer rounding of a real value. -/
noncomputable def roundHalfEvenR (x : ℝ) : ℤ :=
  if x - ⌊x⌋ < 1/2 then ⌊x⌋
  else if 1/2 < x - ⌊x⌋ then ⌊x⌋ + 1
  else if ⌊x⌋ % 2 = 0 then ⌊x⌋ else ⌊x⌋ + 1

/-- `round(x, 4)` on the modelled real value. -/
noncomputable def roundToR4 (x : ℝ) : ℝ := (roundHalfEvenR (x * 10 ^ 4) : ℝ) / 10 ^ 4

/-- `compute_confidence(prediction)` (`scoring.py`, lines 16-77) for a
prediction with a numeric score: adjust, sigmoid-smooth, and round to four
decimal places. -/
noncomputable def compute_confidence (p : Prediction) : ℝ :=
  roundToR4 (sigmoidSmooth (adjustedScore p))

/-! ## `document_service.py` : the processing pipeline

`process_document` (lines 30-215) is modelled as a function of the OCR
outcome and of oracles for the four model calls; `none` for an oracle means
the corresponding Python call raised and the `except` block ran.  Entity
maps are association lists of entity type to entity list; the embedding
model's vector is a list of exact rationals.  File-system fields
(identifiers, paths, timestamps) and logging are out of scope. -/

structure PipelineFns where
  summarize : String → Option String
  ner : String → Option (List (String × List String))
  classify : String → Option (String × ℚ)
  embed : String → Option (List ℚ)

/-- The fields of the `result` dictionary that the checked properties are
about.  `summary` is an `Option` because dictionary access with `.get`
depends on the key's presence; `embed_input` records the argument passed to
`generate_embedding` (if the embedding stage invoked it). -/
structure ProcessResult where
  raw_text : String
  text_length : Nat
  summary : Option String
  entities : List (String × List String)
  entity_count : Nat
  classification : String × ℚ
  embedding : List ℚ
  embedding_dim : Nat
  embed_input : Option String

/-- `result.get("summary", result["raw_text"][:1000])`
(`document_service.py`, line 171): the stored summary if the key is
present, else the first 1000 characters of the raw text. -/
def textForEmbedding (summary : Option String) (raw_text : String) : String :=
  summary.getD (raw_text.take 1000)

/-- `sum(len(v) for v in entities.values())` (`document_service.py`,
line 129). -/
def entityCountOf (es : List (String × List String)) : Nat :=
  (es.map fun p => p.2.length).sum

/-- `process_document` (`document_service.py`, lines 30-215), stage by
stage: OCR failure stores the text `"OCR processing failed"` with
`text_length` 0; summarization always assigns `result["summary"]` (the
generated summary, `"Document too short for summarization"`, or
`"Summarization failed"`); NER, classification and embedding run only on a
truthy `raw_text` and fall back to empty values on failure. -/
def process_document (fns : PipelineFns) (ocr : Option String) : ProcessResult :=
  let raw := ocr.getD "OCR processing failed"
  let text_length := if ocr.isSome then raw.length else 0
  let summary : String :=
    if raw ≠ "" ∧ 50 < (stripBoth (codesOf raw)).length then
      (fns.summarize raw).getD "Summarization failed"
    else "Document too short for summarization"
  let entPair : List (String × List String) × Nat :=
    if raw ≠ "" then
      match fns.ner raw with
      | some es => (es, entityCountOf es)
      | none => ([], 0)
    else ([], 0)
  let classification : String × ℚ :=
    if raw ≠ "" then (fns.classify raw).getD ("unknown", 0)
    else ("unknown", 0)
  let emb : List ℚ × Nat × Option String :=
    if raw ≠ "" then
      let t := textForEmbedding (some summary) raw
      match fns.embed t with
      | some v => (v, v.length, some t)
      | none => ([], 0, some t)
    else ([], 0, none)
  { raw_text := raw, text_length := text_length, summary := some summary,
    entities := entPair.1, entity_count := entPair.2,
    classification := classification, embedding := emb.1,
    embedding_dim := emb.2.1, embed_input := emb.2.2 }

/-! ## `search_service.py` : the post-retrieval part of `search_documents`

The model covers the path of `search_documents` (lines 156-299) in which an
in-memory index with metadata exists and the query embedding succeeds: the
FAISS call `index.search` is abstracted by the `neighbors` list of
(similarity, index) pairs it returned.  The disk-load / rebuild / dummy
result and exception paths are out of scope. -/

/-- The metadata stored per indexed document (`build_index`,
`search_service.py`, lines 55-67); `category` is
`classification.get("category", "")`. -/
structure SearchMeta where
  document_id : String
  file_name : String
  summary : String
  category : String
  entity_count : Nat
  text_length : Nat
  processing_timestamp : String
deriving Repr, DecidableEq

/-- One entry of the list returned by `search_documents`. -/
structure SearchResult where
  document_id : String
  file_name : String
  summary : String
  category : String
  entity_count : Nat
  text_length : Nat
  processing_timestamp : String
  similarity : ℚ
  rank : Nat
deriving Repr, DecidableEq

/-- The result dictionary built from one metadata entry
(`search_service.py`, lines 234-243 and 259-270); `rank` is assigned
later. -/
def mkResult (m : SearchMeta) (sim : ℚ) : SearchResult :=
  { document_id := m.document_id, file_name := m.file_name,
    summary := m.summary, category := m.category,
    entity_count := m.entity_count, text_length := m.text_length,
    processing_timestamp := m.processing_timestamp,
    similarity := sim, rank := 0 }

/-- Python list indexing `_document_metadata[idx]`: negative indices wrap
from the end; out-of-range access raises `IndexError`, modelled by
`none`. -/
def pyIndex (l : List SearchMeta) (i : Int) : Option SearchMeta :=
  if 0 ≤ i then l.get? i.toNat
  else if 0 ≤ (l.length : Int) + i then l.get? ((l.length : Int) + i).toNat
  else none

/-- The thresholded pass over the retrieved neighbors (`search_documents`,
lines 217-249): skip the sentinel index −1, skip similarities below the
threshold, skip `IndexError`, and apply the category filter if present. -/
def thresholdPass (metadata : List SearchMeta) (minSim : ℚ)
    (catFilter : Option String) (neighbors : List (ℚ × Int)) :
    List SearchResult :=
  neighbors.filterMap fun p =>
    if p.2 = -1 then none
    else if p.1 < minSim then none
    else
      match pyIndex metadata p.2 with
      | none => none
      | some m =>
          match catFilter with
          | some cat => if m.category = cat then some (mkResult m p.1) else none
          | none => some (mkResult m p.1)

/-- The fallback pass (`search_documents`, lines 251-275): re-walk the raw
neighbor list ignoring the threshold and the category filter, stopping once
`k` results have been collected (the length check runs after each append,
so `k = 0` still collects one result before breaking). -/
def fallbackPass (metadata : List SearchMeta) (k : Nat) :
    List (ℚ × Int) → Nat → List SearchResult
  | [], _ => []
  | p :: rest, count =>
      if p.2 = -1 then fallbackPass metadata k rest count
      else
        match pyIndex metadata p.2 with
        | none => fallbackPass metadata k rest count
        | some m =>
            if k ≤ count + 1 then [mkResult m p.1]
            else mkResult m p.1 :: fallbackPass metadata k rest (count + 1)

/-- `for i, item in enumerate(results, start=1): item["rank"] = i`
(`search_documents`, lines 279-280). -/
def assignRanks (rs : List SearchResult) : List SearchResult :=
  rs.enum.map fun p => { p.2 with rank := p.1 + 1 }

/-- `search_documents` (`search_service.py`, lines 156-299) on the modelled
path: reject blank queries, run the thresholded pass, fall back to the raw
neighbor list if it produced nothing, truncate to `k`, and assign 1-based
ranks. -/
def search_documents (query : String) (metadata : List SearchMeta)
    (neighbors : List (ℚ × Int)) (k : Nat) (catFilter : Option String)
    (minSim : ℚ) : List SearchResult :=
  if query = "" ∨ stripBoth (codesOf query) = [] then []
  else
    let results := thresholdPass metadata minSim catFilter neighbors
    let results := if results.isEmpty then fallbackPass metadata k neighbors 0
                   else results
    assignRanks (results.take k)

/-! ## Fixtures and auxiliary predicates -/

/-- A code point that NFKD leaves alone: it is its own decomposition and is
a starter (combining class 0).  All ASCII printable and whitespace
characters are inert. -/
def InertChar (c : Nat) : Prop := nfkdDecomp c = [c] ∧ ccc c = 0

instance : DecidablePred InertChar := fun c => by
  unfold InertChar; infer_instance

/-- The initial mock user database `MOCK_USERS` (`user_service.py`,
lines 29-50). -/
def mockUsersDb : List (String × UserRecord) :=
  [("admin",
    { user_id := "admin", username := "admin", email := "admin@example.com",
      hashed_password := "$2b$12$EixZaYVK1fsbw1ZfbX3OXePaWxn96p36WQoeG6Lruj3vjPGga31lW",
      role := "admin", is_active := true, created_at := "2025-01-01T00:00:00",
      last_login := none }),
   ("user",
    { user_id := "user1", username := "user", email := "user@example.com",
      hashed_password := "$2b$12$EixZaYVK1fsbw1ZfbX3OXePaWxn96p36WQoeG6Lruj3vjPGga31lW",
      role := "user", is_active := true, created_at := "2025-01-01T00:00:00",
      last_login := none })]

/-- A raw document text whose stripped length exceeds 50, so the pipeline
attempts summarization. -/
def rawDocText : String :=
  "The quick brown fox jumps over the lazy dog near the river bank."

/-- Pipeline oracles for a run in which `summarize_text` raises and every
other model call succeeds. -/
def failingSummaryFns : PipelineFns :=
  { summarize := fun _ => none,
    ner := fun _ => some [("PERSON", ["Alice"]), ("ORG", ["Acme", "Globex"])],
    classify := fun _ => some ("legal", 9/10),
    embed := fun s => some [(s.length : ℚ), 1] }

/-- An indexed document classified as `legal`, used to exercise the search
fallback with a mismatching category filter. -/
def legalMeta : SearchMeta :=
  { document_id := "doc-1", file_name := "contract.pdf",
    summary := "A contract.", category := "legal", entity_count := 3,
    text_length := 1200, processing_timestamp := "2025-09-07T10:00:00" }

/-! ## Auxiliary lemmas -/

theorem collapseWs_cons_space_true (d : Nat) (rest : List Nat)
    (hs : isSpaceNat d = true) :
    collapseWs true (d :: rest) = collapseWs true rest := by
  simp [collapseWs, hs]

theorem collapseWs_cons_space_false (d : Nat) (rest : List Nat)
    (hs : isSpaceNat d = true) :
    collapseWs false (d :: rest) = 32 :: collapseWs true rest := by
  simp [collapseWs, hs]

theorem collapseWs_cons_nonspace (b : Bool) (d : Nat) (rest : List Nat)
    (hs : isSpaceNat d = false) :
    collapseWs b (d :: rest) = d :: collapseWs false rest := by
  simp [collapseWs, hs]

theorem replaceNewlines_mem (l : List Nat) :
    ∀ c ∈ replaceNewlines l, c = 32 ∨ c ∈ l := by
  induction l using replaceNewlines.induct with
  | case1 => intro c hc; cases hc
  | case2 rest ih =>
      intro c hc
      simp only [replaceNewlines, List.mem_cons] at hc ⊢
      rcases hc with h | h
      · exact Or.inl h
      · rcases ih c h with h2 | h2
        · exact Or.inl h2
        · exact Or.inr (Or.inr (Or.inr h2))
  | case3 rest hp ih =>
      intro c hc
      simp only [replaceNewlines, List.mem_cons] at hc ⊢
      rcases hc with h | h
      · exact Or.inl h
      · rcases ih c h with h2 | h2
        · exact Or.inl h2
        · exact Or.inr (Or.inr h2)
  | case4 rest ih =>
      intro c hc
      simp only [replaceNewlines, List.mem_cons] at hc ⊢
      rcases hc with h | h
      · exact Or.inl h
      · rcases ih c h with h2 | h2
        · exact Or.inl h2
        · exact Or.inr (Or.inr h2)
  | case5 d rest hpair h13 h10 ih =>
      intro c hc
      simp only [replaceNewlines, List.mem_cons] at hc ⊢
      rcases hc with h | h
      · exact Or.inr (Or.inl h)
      · rcases ih c h with h2 | h2
        · exact Or.inl h2
        · exact Or.inr (Or.inr h2)

theorem replaceNewlines_id (l : List Nat)
    (h : ∀ c ∈ l, c ≠ 13 ∧ c ≠ 10) : replaceNewlines l = l := by
  induction l using replaceNewlines.induct with
  | case1 => rfl
  | case2 rest ih => exact absurd rfl (h 13 (by simp)).1
  | case3 rest hp ih => exact absurd rfl (h 13 (by simp)).1
  | case4 rest ih => exact absurd rfl (h 10 (by simp)).2
  | case5 d rest hpair h13 h10 ih =>
      simp only [replaceNewlines]
      rw [ih fun e he => h e (by simp [he])]

theorem collapseWs_mem (l : List Nat) :
    ∀ b, ∀ c ∈ collapseWs b l, c = 32 ∨ c ∈ l := by
  induction l with
  | nil => intro b c hc; cases hc
  | cons d rest ih =>
      intro b c hc
      by_cases hs : isSpaceNat d
      · cases b with
        | true =>
            rw [collapseWs_cons_space_true d rest hs] at hc
            rcases ih true c hc with h | h
            · exact Or.inl h
            · exact Or.inr (List.mem_cons_of_mem _ h)
        | false =>
            rw [collapseWs_cons_space_false d rest hs] at hc
            rcases List.mem_cons.mp hc with h | h
            · exact Or.inl h
            · rcases ih true c h with h2 | h2
              · exact Or.inl h2
              · exact Or.inr (List.mem_cons_of_mem _ h2)
      · rw [collapseWs_cons_nonspace b d rest (by simpa using hs)] at hc
        rcases List.mem_cons.mp hc with h | h
        · exact Or.inr (by simp [h])
        · rcases ih false c h with h2 | h2
          · exact Or.inl h2
          · exact Or.inr (List.mem_cons_of_mem _ h2)

theorem stripBoth_mem (l : List Nat) : ∀ c ∈ stripBoth l, c ∈ l := by
  intro c hc
  unfold stripBoth at hc
  rw [List.mem_reverse] at hc
  have h1 := (List.dropWhile_sublist
    (l := (l.dropWhile isSpaceNat).reverse) (p := isSpaceNat)).subset hc
  rw [List.mem_reverse] at h1
  exact (List.dropWhile_sublist (l := l) (p := isSpaceNat)).subset h1

theorem flatten_map_decomp (l : List Nat) (h : ∀ c ∈ l, nfkdDecomp c = [c]) :
    (l.map nfkdDecomp).flatten = l := by
  induction l with
  | nil => rfl
  | cons c rest ih =>
      simp only [List.map_cons, List.flatten_cons, h c (by simp)]
      rw [ih fun d hd => h d (by simp [hd])]
      rfl

theorem canonicalOrder_id (l : List Nat) (h : ∀ c ∈ l, ccc c = 0) :
    canonicalOrder l = l := by
  induction l with
  | nil => rfl
  | cons c rest ih =>
      have hrest := ih fun d hd => h d (by simp [hd])
      show cInsert c (canonicalOrder rest) = c :: rest
      rw [hrest]
      cases rest with
      | nil => rfl
      | cons d ds =>
          show (if 0 < ccc d ∧ ccc d < ccc c then d :: cInsert c ds
                else c :: d :: ds) = _
          rw [if_neg]
          rw [h d (by simp)]
          simp

theorem nfkd_id (l : List Nat) (h : ∀ c ∈ l, InertChar c) : nfkd l = l := by
  unfold nfkd
  rw [flatten_map_decomp l fun c hc => (h c hc).1]
  exact canonicalOrder_id l fun c hc => (h c hc).2

theorem collapseWs_spaces32 (l : List Nat) :
    ∀ b, ∀ c ∈ collapseWs b l, isSpaceNat c = true → c = 32 := by
  induction l with
  | nil => intro b c hc; cases hc
  | cons d rest ih =>
      intro b c hc hsp
      by_cases hs : isSpaceNat d
      · cases b with
        | true =>
            rw [collapseWs_cons_space_true d rest hs] at hc
            exact ih true c hc hsp
        | false =>
            rw [collapseWs_cons_space_false d rest hs] at hc
            rcases List.mem_cons.mp hc with h | h
            · exact h
            · exact ih true c h hsp
      · rw [collapseWs_cons_nonspace b d rest (by simpa using hs)] at hc
        rcases List.mem_cons.mp hc with h | h
        · rw [h] at hsp; exact absurd hsp (by simpa using hs)
        · exact ih false c h hsp

theorem collapseWs_true_head (l : List Nat) :
    ∀ c, (collapseWs true l).head? = some c → isSpaceNat c = false := by
  induction l with
  | nil => intro c hc; cases hc
  | cons d rest ih =>
      intro c hc
      by_cases hs : isSpaceNat d
      · rw [collapseWs_cons_space_true d rest hs] at hc
        exact ih c hc
      · rw [collapseWs_cons_nonspace true d rest (by simpa using hs)] at hc
        simp only [List.head?_cons, Option.some_inj] at hc
        rw [← hc]
        simpa using hs

theorem collapseWs_chain (l : List Nat) :
    ∀ b, List.Chain'
      (fun a b => ¬(isSpaceNat a = true ∧ isSpaceNat b = true))
      (collapseWs b l) := by
  induction l with
  | nil => intro b; simp [collapseWs]
  | cons d rest ih =>
      intro b
      by_cases hs : isSpaceNat d
      · cases b with
        | true => rw [collapseWs_cons_space_true d rest hs]; exact ih true
        | false =>
            rw [collapseWs_cons_space_false d rest hs]
            rw [List.chain'_cons']
            refine ⟨fun y hy => ?_, ih true⟩
            intro hcon
            have := collapseWs_true_head rest y (Option.mem_def.mp hy)
            rw [this] at hcon
            exact absurd hcon.2 (by simp)
      · rw [collapseWs_cons_nonspace b d rest (by simpa using hs)]
        rw [List.chain'_cons']
        refine ⟨fun y hy => ?_, ih false⟩
        intro hcon
        exact absurd hcon.1 (by simpa using hs)

theorem stripBoth_eq_rdrop (l : List Nat) :
    stripBoth l = List.rdropWhile isSpaceNat (l.dropWhile isSpaceNat) := rfl

theorem stripBoth_idem (l : List Nat) : stripBoth (stripBoth l) = stripBoth l := by
  rw [stripBoth_eq_rdrop, stripBoth_eq_rdrop]
  have h1 : (List.rdropWhile isSpaceNat (l.dropWhile isSpaceNat)).dropWhile isSpaceNat
      = List.rdropWhile isSpaceNat (l.dropWhile isSpaceNat) := by
    rw [List.dropWhile_eq_self_iff]
    intro hl
    have hpre := List.rdropWhile_prefix (p := isSpaceNat)
      (l := l.dropWhile isSpaceNat)
    have hlen : 0 < (l.dropWhile isSpaceNat).length :=
      lt_of_lt_of_le hl hpre.length_le
    have hget := hpre.getElem (n := 0) hl
    simp only [List.get_eq_getElem]
    rw [hget]
    have := List.dropWhile_get_zero_not isSpaceNat l hlen
    simpa [List.get_eq_getElem] using this
  rw [h1, List.rdropWhile_idempotent]

theorem stripBoth_chain (l : List Nat)
    (h : List.Chain'
      (fun a b => ¬(isSpaceNat a = true ∧ isSpaceNat b = true)) l) :
    List.Chain' (fun a b => ¬(isSpaceNat a = true ∧ isSpaceNat b = true))
      (stripBoth l) := by
  rw [stripBoth_eq_rdrop]
  have h2 : List.Chain' (fun a b => ¬(isSpaceNat a = true ∧ isSpaceNat b = true))
      (l.dropWhile isSpaceNat) := h.suffix (List.dropWhile_suffix _)
  exact List.Chain'.prefix h2 ( List.rdropWhile_prefix _ _)

theorem collapseWs_id (l : List Nat)
    (h32 : ∀ c ∈ l, isSpaceNat c = true → c = 32)
    (hch : List.Chain'
      (fun a b => ¬(isSpaceNat a = true ∧ isSpaceNat b = true)) l) :
    collapseWs false l = l ∧
    ((∀ c, l.head? = some c → isSpaceNat c = false) → collapseWs true l = l) := by
  induction l with
  | nil => exact ⟨rfl, fun _ => rfl⟩
  | cons d rest ih =>
      have h32r : ∀ c ∈ rest, isSpaceNat c = true → c = 32 :=
        fun c hc => h32 c (List.mem_cons_of_mem _ hc)
      have ihr := ih h32r hch.tail
      by_cases hs : isSpaceNat d
      · have hd32 : d = 32 := h32 d (by simp) (by simpa using hs)
        have hhead : ∀ c, rest.head? = some c → isSpaceNat c = false := by
          intro c hc
          have := (List.chain'_cons'.mp hch).1 c hc
          by_contra hcc
          exact this ⟨by simpa using hs, by simpa using hcc⟩
        constructor
        · rw [collapseWs_cons_space_false d rest (by simpa using hs)]
          rw [ihr.2 hhead, hd32]
        · intro hhd
          have := hhd d (by simp)
          rw [this] at hs
          exact absurd hs (by simp)
      · have hs' : isSpaceNat d = false := by simpa using hs
        constructor
        · rw [collapseWs_cons_nonspace false d rest hs', ihr.1]
        · intro _
          rw [collapseWs_cons_nonspace true d rest hs', ihr.1]

theorem sanitizeEntries_eq_map (es : List (String × PyVal)) :
    sanitizeEntries es = es.map fun p =>
      if isSensitiveKey p.1 then (p.1, PyVal.str "[REDACTED]")
      else (p.1, sanitizeVal p.2) := by
  induction es with
  | nil => rfl
  | cons p rest ih => cases p with
    | mk k v => simp only [sanitizeEntries, ih, List.map_cons]

theorem thresholdPass_nil (md : List SearchMeta) (ms : ℚ) (cf : Option String) :
    ∀ ns, (∀ p ∈ ns, p.1 < ms) → thresholdPass md ms cf ns = [] := by
  intro ns h
  induction ns with
  | nil => rfl
  | cons p rest ih =>
      have hp := h p (List.mem_cons_self _ _)
      have hr := ih fun q hq => h q (List.mem_cons_of_mem _ hq)
      simp only [thresholdPass, List.filterMap_cons] at hr ⊢
      by_cases hidx : p.2 = -1
      · simp [hidx, hr]
      · simp [hidx, hp, hr]

theorem fallbackPass_ne_nil (md : List SearchMeta) (k : Nat) (p : ℚ × Int)
    (rest : List (ℚ × Int)) (c : Nat) (hv : 0 ≤ p.2)
    (hlt : p.2.toNat < md.length) :
    fallbackPass md k (p :: rest) c ≠ [] := by
  have hidx : ¬ p.2 = -1 := by omega
  obtain ⟨m, hm⟩ : ∃ m, pyIndex md p.2 = some m := by
    unfold pyIndex
    rw [if_pos hv]
    cases hg : md.get? p.2.toNat with
    | none => rw [List.get?_eq_none] at hg; omega
    | some m => exact ⟨m, rfl⟩
  simp only [fallbackPass, hidx, if_false, hm]
  split <;> simp

theorem assignRanks_length (rs : List SearchResult) :
    (assignRanks rs).length = rs.length := by
  simp [assignRanks]

theorem assignRanks_rank (rs : List SearchResult) (i : Nat)
    (h : i < (assignRanks rs).length) :
    ((assignRanks rs).get ⟨i, h⟩).rank = i + 1 := by
  simp [assignRanks, List.get_eq_getElem, List.getElem_map, List.getElem_enum]

theorem sigmoidSmooth_pos (s : ℚ) : 0 < sigmoidSmooth s := by
  unfold sigmoidSmooth
  positivity

theorem sigmoidSmooth_lt_one (s : ℚ) : sigmoidSmooth s < 1 := by
  unfold sigmoidSmooth
  rw [div_lt_one (by positivity)]
  have := Real.exp_pos (-(((s - 1/2) * 10 : ℚ) : ℝ))
  linarith

theorem roundHalfEvenR_mem (x : ℝ) :
    roundHalfEvenR x = ⌊x⌋ ∨ roundHalfEvenR x = ⌊x⌋ + 1 := by
  unfold roundHalfEvenR
  split_ifs <;> simp

theorem roundToR4_bounds (x : ℝ) (h0 : 0 < x) (h1 : x < 1) :
    0 ≤ roundToR4 x ∧ roundToR4 x ≤ 1 := by
  have hy0 : (0:ℝ) ≤ x * 10 ^ 4 := by positivity
  have hy1 : x * 10 ^ 4 < 10 ^ 4 := by nlinarith
  have hf0 : 0 ≤ ⌊x * 10 ^ 4⌋ := Int.floor_nonneg.mpr hy0
  have hf1 : ⌊x * 10 ^ 4⌋ < 10 ^ 4 := by
    rw [Int.floor_lt]
    push_cast
    norm_num
    linarith
  have hb : 0 ≤ roundHalfEvenR (x * 10 ^ 4) ∧
      roundHalfEvenR (x * 10 ^ 4) ≤ 10 ^ 4 := by
    rcases roundHalfEvenR_mem (x * 10 ^ 4) with h | h <;> rw [h] <;> omega
  unfold roundToR4
  constructor
  · apply div_nonneg _ (by positivity)
    exact_mod_cast hb.1
  · rw [div_le_one (by positivity)]
    exact_mod_cast hb.2

/-! ## The checked claims -/

/-- Claim C1 (code bug evidence).  The claim says that when no summary was
produced (summarization failed or was skipped), the text passed to
`generate_embedding` is the first 1000 characters of the raw text.  In the
code, however, `result["summary"]` is always assigned before the embedding
stage — on failure it holds the placeholder `"Summarization failed"` — so
`result.get("summary", result["raw_text"][:1000])` never falls back: on the
fixture run, the summarization oracle raises, and the text embedded is the
placeholder, which differs from the first 1000 characters of the raw text
(the whole raw text here, as it is shorter than 1000 characters). -/
theorem c1_failed_summarization_embeds_placeholder :
    (process_document failingSummaryFns (some rawDocText)).embed_input =
      some "Summarization failed" ∧
    (process_document failingSummaryFns (some rawDocText)).summary =
      some "Summarization failed" ∧
    (∀ s : String, textForEmbedding none s = s.take 1000) ∧
    codesOf "Summarization failed" ≠ (codesOf rawDocText).take 1000 := by
  refine ⟨by decide, by decide, fun s => ?_, by decide⟩
  rw [textForEmbedding, Option.getD_none]

/-- Claim C2: for every document processed through the full pipeline with
non-empty extracted text, the stored `entity_count` equals the sum of the
lengths of the entity-type lists in `entities`, and `embedding_dim` equals
the length of the `embedding` list — whatever the NER, classification and
embedding stages do (success or failure). -/
theorem c2_processed_record_invariants (fns : PipelineFns) (raw : String)
    (h : raw ≠ "") :
    (process_document fns (some raw)).entity_count =
      entityCountOf (process_document fns (some raw)).entities ∧
    (process_document fns (some raw)).embedding_dim =
      (process_document fns (some raw)).embedding.length := by
  unfold process_document
  simp only [Option.getD_some, Option.isSome_some, if_pos h]
  constructor
  · cases hner : fns.ner raw <;> simp [hner, entityCountOf, h]
  · cases hemb : fns.embed (textForEmbedding
      (some (if raw ≠ "" ∧ 50 < (stripBoth (codesOf raw)).length then
        (fns.summarize raw).getD "Summarization failed"
      else "Document too short for summarization")) raw) <;> simp [hemb, h]

/-- Witness for claim C2 at a concrete pipeline run. -/
theorem c2_processed_record_invariants_witness :
    (process_document failingSummaryFns (some rawDocText)).entity_count =
      entityCountOf (process_document failingSummaryFns (some rawDocText)).entities ∧
    (process_document failingSummaryFns (some rawDocText)).embedding_dim =
      (process_document failingSummaryFns (some rawDocText)).embedding.length :=
  c2_processed_record_invariants failingSummaryFns rawDocText (by decide)

/-- Claim C3: over a non-empty index (every retrieved neighbor is a valid
position of the metadata list and at least one was retrieved), with a
non-blank query and a positive `k`, if every retrieved neighbor falls below
the minimum-similarity threshold then `search_documents` still returns a
non-empty list of at most `k` results, ranked 1..n — the unconditional
fallback pass, regardless of any category filter. -/
theorem c3_search_fallback_guarantee (query : String) (md : List SearchMeta)
    (ns : List (ℚ × Int)) (k : Nat) (cf : Option String) (ms : ℚ)
    (hq : stripBoth (codesOf query) ≠ [])
    (_hmd : md ≠ []) (hns : ns ≠ [])
    (hvalid : ∀ p ∈ ns, 0 ≤ p.2 ∧ p.2.toNat < md.length)
    (hbelow : ∀ p ∈ ns, p.1 < ms) (hk : 0 < k) :
    search_documents query md ns k cf ms ≠ [] ∧
    (search_documents query md ns k cf ms).length ≤ k ∧
    ∀ i (h : i < (search_documents query md ns k cf ms).length),
      ((search_documents query md ns k cf ms).get ⟨i, h⟩).rank = i + 1 := by
  have hq' : ¬ (query = "" ∨ stripBoth (codesOf query) = []) := by
    rintro (h | h)
    · exact hq (by rw [h]; rfl)
    · exact hq h
  have hth : thresholdPass md ms cf ns = [] := thresholdPass_nil md ms cf ns hbelow
  obtain ⟨p, rest, rfl⟩ : ∃ p rest, ns = p :: rest := by
    cases ns with
    | nil => exact absurd rfl hns
    | cons p rest => exact ⟨p, rest, rfl⟩
  have hv := hvalid p (List.mem_cons_self _ _)
  have hfb : fallbackPass md k (p :: rest) 0 ≠ [] :=
    fallbackPass_ne_nil md k p rest 0 hv.1 hv.2
  have hsd : search_documents query md (p :: rest) k cf ms =
      assignRanks ((fallbackPass md k (p :: rest) 0).take k) := by
    unfold search_documents
    rw [if_neg hq', hth]
    rfl
  rw [hsd]
  refine ⟨?_, ?_, fun i h => assignRanks_rank _ i h⟩
  · intro hnil
    have hlen0 : ((fallbackPass md k (p :: rest) 0).take k).length = 0 := by
      rw [← assignRanks_length, hnil]; rfl
    rw [List.length_take] at hlen0
    rcases Nat.min_eq_zero_iff.mp hlen0 with h0 | h0
    · omega
    · exact hfb (List.length_eq_zero.mp h0)
  · rw [assignRanks_length, List.length_take]
    omega

/-- Witness for claim C3: one indexed document, one retrieved neighbor with
similarity 0 below the threshold 1, no category filter. -/
theorem c3_search_fallback_guarantee_witness :
    search_documents "contract terms" [legalMeta] [((0:ℚ), 0)] 5 none 1 ≠ [] ∧
    (search_documents "contract terms" [legalMeta] [((0:ℚ), 0)] 5 none 1).length ≤ 5 ∧
    ∀ i (h : i <
        (search_documents "contract terms" [legalMeta] [((0:ℚ), 0)] 5 none 1).length),
      ((search_documents "contract terms" [legalMeta] [((0:ℚ), 0)] 5 none 1).get
        ⟨i, h⟩).rank = i + 1 :=
  c3_search_fallback_guarantee "contract terms" [legalMeta] [((0:ℚ), 0)] 5 none 1
    (by decide) (by decide) (by decide)
    (by intro p hp; simp at hp; simp [hp]) (by intro p hp; simp at hp; simp [hp])
    (by decide)

/-- Claim C4 counterexample: for the empty input, the dictionary returned
by `get_text_statistics` has no `readability_score` key at all, while the
claim states that the readability score is present and zero-valued. -/
theorem c4_empty_input_readability_absent :
    (get_text_statistics []).readability_score = none := by decide

/-- Claim C4 as amended: for empty input the six base statistics are
present and zero but `readability_score` is absent; for non-empty input all
seven fields are present, the counts and rounded averages are as described,
and the readability score equals
`round(0.5 * average_sentence_length + 2 * average_word_length, 2)` on the
raw averages whenever there is at least one word and one sentence (with the
code's value 0 when there are no words or no sentences). -/
theorem c4_text_statistics_fields :
    get_text_statistics [] =
      { character_count := 0, word_count := 0, sentence_count := 0,
        paragraph_count := 0, average_word_length := 0,
        average_sentence_length := 0, readability_score := none } ∧
    ∀ t : List Nat, t ≠ [] →
      (get_text_statistics t).character_count = t.length ∧
      (get_text_statistics t).word_count = (tokenize_text t).length ∧
      (get_text_statistics t).sentence_count = (extract_sentences t 10).length ∧
      (get_text_statistics t).paragraph_count = (extract_paragraphs t 50).length ∧
      (get_text_statistics t).average_word_length = roundToQ 2
        (if 0 < (tokenize_text t).length then
          (totalLen (tokenize_text t) : ℚ) / ((tokenize_text t).length : ℚ)
        else 0) ∧
      (get_text_statistics t).average_sentence_length = roundToQ 2
        (if 0 < (extract_sentences t 10).length then
          ((tokenize_text t).length : ℚ) / ((extract_sentences t 10).length : ℚ)
        else 0) ∧
      (get_text_statistics t).readability_score =
        some (calculateSimpleReadability (extract_sentences t 10) (tokenize_text t)) ∧
      (tokenize_text t ≠ [] → extract_sentences t 10 ≠ [] →
        (get_text_statistics t).readability_score = some (roundToQ 2
          ((1/2) * (((tokenize_text t).length : ℚ) /
              ((extract_sentences t 10).length : ℚ)) +
           2 * ((totalLen (tokenize_text t) : ℚ) /
              ((tokenize_text t).length : ℚ))))) := by
  refine ⟨by decide, fun t ht => ?_⟩
  refine ⟨?_, ?_, ?_, ?_, ?_, ?_, ?_, ?_⟩
  · simp [get_text_statistics, ht]
  · simp [get_text_statistics, ht]
  · simp [get_text_statistics, ht]
  · simp [get_text_statistics, ht]
  · simp [get_text_statistics, ht]
  · simp [get_text_statistics, ht]
  · simp [get_text_statistics, ht]
  · intro hw hs
    simp only [get_text_statistics, ht, if_neg, if_false]
    simp only [Option.some_inj]
    unfold calculateSimpleReadability
    rw [if_neg (by tauto)]
    congr 1
    ring

/-- Claim C5: for a prediction with a numeric score and no `margin`,
`entropy` or `input_quality` keys, `compute_confidence` is the 4-decimal
half-even rounding of the logistic `1 / (1 + exp(-10 * (clamp(score) - 0.5)))`
with the score clamped into [0, 1]; consequently the result always lies in
[0, 1], also for scores below 0 or above 1. -/
theorem c5_confidence_clamped_sigmoid (p : Prediction) (h1 : p.margin = none)
    (h2 : p.entropy = none) (h3 : p.input_quality = none) :
    compute_confidence p =
      roundToR4 (1 / (1 + Real.exp (-((10 * (clampScore p.score - 1/2) : ℚ) : ℝ)))) ∧
    0 ≤ compute_confidence p ∧ compute_confidence p ≤ 1 := by
  have hadj : adjustedScore p = clampScore p.score := by
    simp [adjustedScore, h1, h2, h3]
  constructor
  · unfold compute_confidence sigmoidSmooth
    rw [hadj]
    congr 3
    push_cast
    ring
  · exact roundToR4_bounds _ (sigmoidSmooth_pos _) (sigmoidSmooth_lt_one _)

/-- Witness for claim C5 at the out-of-range score 3/2. -/
theorem c5_confidence_clamped_sigmoid_witness :
    0 ≤ compute_confidence ⟨3/2, none, none, none⟩ ∧
    compute_confidence ⟨3/2, none, none, none⟩ ≤ 1 :=
  (c5_confidence_clamped_sigmoid ⟨3/2, none, none, none⟩ rfl rfl rfl).2

/-- Claim C6 counterexample: `clean_text` under its default options is not
idempotent.  On `"a" + U+0300 (combining grave, class 230) + U+0001
(non-printable control) + U+0323 (combining dot below, class 220)`, the
input is already NFKD-normalized (the control character separates the two
combining marks), the first pass only removes the control character, and
the second pass's canonical ordering then swaps the two marks. -/
theorem c6_clean_text_not_idempotent :
    clean_text (clean_text [97, 768, 1, 803]) ≠ clean_text [97, 768, 1, 803] := by
  decide

/-- Claim C6 as amended: `clean_text` under its default options is
idempotent on every input whose code points are NFKD-inert (each is its own
decomposition and has combining class 0) — in particular on all ASCII
printable and whitespace text.  In general idempotence fails, as a removed
non-printable character between combining marks lets the second pass
reorder them. -/
theorem c6_clean_text_idempotent_on_inert (l : List Nat)
    (h : ∀ c ∈ l, InertChar c) :
    clean_text (clean_text l) = clean_text l := by
  have inert32 : InertChar 32 := ⟨rfl, rfl⟩
  have hymem : ∀ c ∈ clean_text l, c = 32 ∨ c ∈ l := by
    intro c hc
    unfold clean_text at hc
    have h1 := stripBoth_mem _ c hc
    rcases collapseWs_mem _ false c h1 with h2 | h2
    · exact Or.inl h2
    rcases replaceNewlines_mem _ c h2 with h3 | h3
    · exact Or.inl h3
    have h4 := List.mem_filter.mp h3
    rw [nfkd_id l h] at h4
    exact Or.inr h4.1
  have hyinert : ∀ c ∈ clean_text l, InertChar c := by
    intro c hc
    rcases hymem c hc with h2 | h2
    · rw [h2]; exact inert32
    · exact h c h2
  have hyP : ∀ c ∈ clean_text l, (isPrintableNat c || isSpaceNat c) = true := by
    intro c hc
    unfold clean_text at hc
    have h1 := stripBoth_mem _ c hc
    rcases collapseWs_mem _ false c h1 with h2 | h2
    · rw [h2]; rfl
    rcases replaceNewlines_mem _ c h2 with h3 | h3
    · rw [h3]; rfl
    exact (List.mem_filter.mp h3).2
  have hy32 : ∀ c ∈ clean_text l, isSpaceNat c = true → c = 32 := by
    intro c hc hsp
    unfold clean_text at hc
    exact collapseWs_spaces32 _ false c (stripBoth_mem _ c hc) hsp
  have hych : List.Chain'
      (fun a b => ¬(isSpaceNat a = true ∧ isSpaceNat b = true)) (clean_text l) := by
    unfold clean_text
    exact stripBoth_chain _ (collapseWs_chain _ false)
  have hynl : ∀ c ∈ clean_text l, c ≠ 13 ∧ c ≠ 10 := by
    intro c hc
    have h13 := hy32 c hc
    constructor
    · intro he
      rw [he] at h13
      exact absurd (h13 rfl) (by decide)
    · intro he
      rw [he] at h13
      exact absurd (h13 rfl) (by decide)
  conv_lhs => rw [show clean_text (clean_text l) =
    stripBoth (collapseWs false (replaceNewlines ((nfkd (clean_text l)).filter
      fun c => isPrintableNat c || isSpaceNat c))) from rfl]
  rw [nfkd_id _ hyinert]
  rw [List.filter_eq_self.mpr hyP]
  rw [replaceNewlines_id _ hynl]
  rw [(collapseWs_id _ hy32 hych).1]
  exact stripBoth_idem _

/-- Witness for claim C6 on a concrete ASCII input with leading, doubled
and trailing spaces. -/
theorem c6_clean_text_idempotent_on_inert_witness :
    (∀ c ∈ [32, 104, 105, 32, 32, 119, 111, 114, 108, 100], InertChar c) ∧
    clean_text (clean_text [32, 104, 105, 32, 32, 119, 111, 114, 108, 100]) =
      clean_text [32, 104, 105, 32, 32, 119, 111, 114, 108, 100] :=
  ⟨by decide, c6_clean_text_idempotent_on_inert _ (by decide)⟩

/-- Claim C7: in the data logged by the API-call helper, a key containing
`password`, `token`, `api_key`, `secret` or `authorization`
(case-insensitively, anywhere in the key name) has its value replaced by
the literal `"[REDACTED]"`; any other key keeps its value, with dictionary
values sanitized recursively (so the redaction reaches nested mappings) and
non-dictionary values kept verbatim; `log_api_call` logs exactly the
sanitized payload when one is supplied. -/
theorem c7_sanitize_request_data :
    (∀ es : List (String × PyVal), (sanitizeEntries es).length = es.length) ∧
    (∀ (es : List (String × PyVal)) (i : Nat) (k : String) (v : PyVal),
      es[i]? = some (k, v) →
      (sanitizeEntries es)[i]? =
        some (if isSensitiveKey k then (k, PyVal.str "[REDACTED]")
              else (k, sanitizeVal v))) ∧
    (∀ s, sanitizeVal (PyVal.str s) = PyVal.str s) ∧
    (∀ n, sanitizeVal (PyVal.int n) = PyVal.int n) ∧
    (∀ es, sanitizeVal (PyVal.dict es) = PyVal.dict (sanitizeEntries es)) ∧
    (∀ es, logApiCallRequestData es =
      if es.isEmpty then none else some (PyVal.dict (sanitizeEntries es))) := by
  refine ⟨fun es => ?_, fun es i k v h => ?_, fun s => rfl, fun n => rfl,
    fun es => rfl, fun es => rfl⟩
  · rw [sanitizeEntries_eq_map, List.length_map]
  · rw [sanitizeEntries_eq_map, List.getElem?_map, h]
    rfl

/-- Claim C8: `check_permission` is exactly the comparison of role levels
under the fixed order guest(0) < user(1) < admin(2) < superadmin(3), every
unknown role name has level 0, and in particular a user cannot act as an
admin while an admin can act as a user or an admin. -/
theorem c8_check_permission_role_order :
    (∀ u r : String, check_permission u r = true ↔ roleLevel r ≤ roleLevel u) ∧
    (∀ r : String, r ≠ "guest" → r ≠ "user" → r ≠ "admin" → r ≠ "superadmin" →
      roleLevel r = 0) ∧
    roleLevel "guest" = 0 ∧ roleLevel "user" = 1 ∧ roleLevel "admin" = 2 ∧
    roleLevel "superadmin" = 3 ∧
    check_permission "user" "admin" = false ∧
    check_permission "admin" "user" = true ∧
    check_permission "admin" "admin" = true := by
  refine ⟨fun u r => ?_, fun r h1 h2 h3 h4 => ?_, ?_, ?_, ?_, ?_, ?_, ?_, ?_⟩
  · simp [check_permission]
  · simp [roleLevel, h1, h2, h3, h4]
  all_goals decide

/-- Claim C9: with a category filter that no neighbor satisfies, the
thresholded pass is empty and the fallback pass then returns results
straight from the raw neighbor list, ignoring the filter: a search filtered
to `business` over an index holding one `legal` document returns that
`legal` document, ranked 1. -/
theorem c9_fallback_ignores_category_filter :
    thresholdPass [legalMeta] 0 (some "business") [((1:ℚ), 0)] = [] ∧
    search_documents "contract terms" [legalMeta] [((1:ℚ), 0)] 5
        (some "business") 0 =
      [{ mkResult legalMeta 1 with rank := 1 }] ∧
    legalMeta.category ≠ "business" := by
  refine ⟨by decide, by decide, by decide⟩

/-- Claim C10 counterexample: the empty username is not in the directory,
the email is non-empty and the password has at least 6 characters, yet
`create_user` fails (the `"Missing required fields"` validation), so the
claim's precondition needs a non-empty username. -/
theorem c10_create_user_empty_username_fails :
    getUserByUsername mockUsersDb "" = none ∧
    (create_user mockUsersDb "" "eve@example.com" "secret1" "superadmin"
      "user_0a1b" "hashedpw" "2025-10-12T00:00:00").success = false := by
  refine ⟨by decide, by decide⟩

/-- Claim C10 as amended: `create_user` performs no validation of the role
argument: for every role string, a non-empty username not already in the
directory, a non-empty email and a password of at least 6 characters yield
success, and the stored record carries the supplied role verbatim with
`is_active` true. -/
theorem c10_create_user_stores_any_role (db : List (String × UserRecord))
    (username email password role newId hash now : String)
    (h1 : getUserByUsername db username = none) (h2 : username ≠ "")
    (h3 : email ≠ "") (h4 : 6 ≤ password.length) :
    (create_user db username email password role newId hash now).success = true ∧
    getUserByUsername
        (create_user db username email password role newId hash now).db username =
      some { user_id := newId, username := username, email := email,
             hashed_password := hash, role := role, is_active := true,
             created_at := now, last_login := none } := by
  have hp : password ≠ "" := by
    intro he
    rw [he] at h4
    simp at h4
  unfold create_user
  rw [h1]
  simp only [Option.isSome_none, Bool.false_eq_true, if_false]
  rw [if_neg (by simp [h2, h3, hp]), if_neg (by omega)]
  exact ⟨rfl, by simp [getUserByUsername, List.find?]⟩

/-- Witness for claim C10: creating a fresh user with the role
`superadmin` (outside the known role set for ordinary creation) succeeds
and stores that role verbatim. -/
theorem c10_create_user_stores_any_role_witness :
    (create_user mockUsersDb "eve" "eve@example.com" "secret1" "superadmin"
      "user_0a1b" "hashedpw" "2025-10-12T00:00:00").success = true ∧
    getUserByUsername
        (create_user mockUsersDb "eve" "eve@example.com" "secret1" "superadmin"
          "user_0a1b" "hashedpw" "2025-10-12T00:00:00").db "eve" =
      some { user_id := "user_0a1b", username := "eve", email := "eve@example.com",
             hashed_password := "hashedpw", role := "superadmin", is_active := true,
             created_at := "2025-10-12T00:00:00", last_login := none } :=
  c10_create_user_stores_any_role mockUsersDb "eve" "eve@example.com" "secret1"
    "superadmin" "user_0a1b" "hashedpw" "2025-10-12T00:00:00"
    (by decide) (by decide) (by decide) (by decide)

end DocuSense
